import Mathlib

/-!
A shallow embedding of the packed-memory array implemented in `src/pma.cc`
(declarations in `src/pma.h`).

Modelling conventions:

* C++ `uint32_t` values are modelled as `Nat`, with wrap-around written
  explicitly as `% U32` at every subtraction or addition that can wrap in the
  source.  C++ `int` values that can become negative (the `naive_rebalance`
  phase-two counters) are modelled as `Int`.
* Every `std::vector` access is modelled with an explicit bounds check:
  an out-of-bounds read or write is undefined behaviour in the source, so the
  model returns `none`.  A function returns `none` exactly when the C++
  execution has no defined result: an out-of-bounds access, an integer
  division (or modulus) by zero, control falling off the end of a
  value-returning function (`segment_to_insert`), or a loop that never
  terminates.
* Loops are modelled by structural recursion on an explicit fuel argument.
  Each wrapper passes a fuel that is provably at least the number of
  iterations the C++ loop can perform before exiting or hitting undefined
  behaviour, so fuel exhaustion (`none`) occurs only when the C++ loop really
  diverges; a comment at each wrapper gives the bound.
* The density thresholds are C++ `double`s.  They are modelled in `ℚ`.  Every
  threshold value reached by the theorems below is a dyadic rational built
  from the exactly representable constants 0.5 and 1.0 by exact double
  operations, so the rational model agrees with the double computation there.
* `pma.cc` defines the constructor, `operator[]` (a read that mutates
  nothing), `insert`, `segment_to_insert`, `position_to_insert`, `rebalance`,
  `clear_window`, `naive_rebalance`, `resize` and the const observers.
  `erase`, `predecessor`, `one_phase_rebalance` and `within_balance` are
  declared in `pma.h` but have no definition anywhere in the repository, so
  they are not operations of the program and are not modelled.
-/

/-- 2^32, the modulus of `uint32_t` arithmetic. -/
def U32 : Nat := 2 ^ 32

/-- Truncating base-two logarithm, via fuelled halving (fuel `n` is enough
since `n` cannot be halved to below 1 more than `n` times).  The source calls
`std::log2` (on `double`) and truncates the result to `int`; on the arguments
that occur (4 and doublings of it) the double computation is exact and the
truncation is the floor, i.e. exactly this function. -/
def log2_go (n : Nat) (fuel : Nat) : Nat :=
  match fuel with
  | 0 => 0
  | fuel + 1 => if 2 ≤ n then log2_go (n / 2) fuel + 1 else 0

def log2u (n : Nat) : Nat := log2_go n n

/-- A `std::vector` write through a `Nat` index; out of bounds is undefined
behaviour, hence `none`. -/
def setN {α : Type} (l : List α) (i : Nat) (a : α) : Option (List α) :=
  if i < l.length then some (l.set i a) else none

/-- A `std::vector` read through a C++ `int` index that may be negative
(phase two of `naive_rebalance`); any index outside the vector is undefined
behaviour, hence `none`. -/
def readI {α : Type} (l : List α) (i : Int) : Option α :=
  if 0 ≤ i then l.get? i.toNat else none

/-- A `std::vector` write through a C++ `int` index that may be negative. -/
def writeI {α : Type} (l : List α) (i : Int) (a : α) : Option (List α) :=
  if 0 ≤ i ∧ i.toNat < l.length then some (l.set i.toNat a) else none

/-- The value of an `int` expression when the usual arithmetic conversions
compare it against a `uint32_t` (the phase-two loop condition
`i >= window` in `naive_rebalance` converts the `int` `i` to `uint32_t`). -/
def u32ofInt (i : Int) : Nat := (i % (U32 : Int)).toNat

/-- `std::vector::resize`: growing appends value-initialised elements
(`0` / `false`), shrinking truncates. -/
def resizeList {α : Type} (l : List α) (n : Nat) (dflt : α) : List α :=
  if n ≤ l.length then l.take n else l ++ List.replicate (n - l.length) dflt

/-- The state of a `pma` object: the five data members of the C++ class.
`_free_index_bitmap` follows the code (not the inverted comment in `pma.h`):
`index_is_free(i)` is `_free_index_bitmap[i] == false`, so a `true` bit means
the slot is occupied. -/
structure pma where
  _implicit_tree_height : Nat
  _segment_size : Nat
  _size : Nat
  _free_index_bitmap : List Bool
  _storage : List Int
deriving DecidableEq

/-- `pma::INITIAL_CAPACITY`. -/
def INITIAL_CAPACITY : Nat := 4

/-- `pma::ROOT_UPPER_DENSITY` (0.5, exactly representable as a double). -/
def ROOT_UPPER_DENSITY : ℚ := 1 / 2

/-- `pma::LEAF_UPPER_DENSITY` (1.0, exactly representable as a double). -/
def LEAF_UPPER_DENSITY : ℚ := 1

/-- `pma::capacity`: `_storage.size()`. -/
def pma.capacity (st : pma) : Nat := st._storage.length

/-- `pma::size`: the `_size` counter. -/
def pma.size (st : pma) : Nat := st._size

/-- `pma::segment_size`. -/
def pma.segment_size (st : pma) : Nat := st._segment_size

/-- `pma::tree_height`. -/
def pma.tree_height (st : pma) : Nat := st._implicit_tree_height

/-- `pma::number_of_segments`: `_storage.size() / _segment_size`.  (With
`_segment_size = 0` the C++ division is undefined behaviour; `Nat` division
yields 0 and the callers below treat 0 as the undefined case.) -/
def pma.number_of_segments (st : pma) : Nat := st._storage.length / st._segment_size

/-- `pma::index_is_free`: `_free_index_bitmap[indexno] == false`; an
out-of-bounds read is undefined behaviour. -/
def pma.index_is_free (st : pma) (indexno : Nat) : Option Bool :=
  if h : indexno < st._free_index_bitmap.length then
    some (st._free_index_bitmap.get ⟨indexno, h⟩ == false)
  else none

/-- `pma::window_capacity`: `_segment_size << height` in `uint32_t`. -/
def pma.window_capacity (st : pma) (height : Nat) : Nat :=
  (st._segment_size * 2 ^ height) % U32

/-- `pma::upper_density_threshold`:
`ROOT_UPPER_DENSITY + (LEAF_UPPER_DENSITY - ROOT_UPPER_DENSITY) *
(_implicit_tree_height - height) / _implicit_tree_height`, where the
subtraction in parentheses is `int` arithmetic and the rest is `double`
arithmetic (exact on the values the theorems below use). -/
def pma.upper_density_threshold (st : pma) (height : Nat) : ℚ :=
  ROOT_UPPER_DENSITY + (LEAF_UPPER_DENSITY - ROOT_UPPER_DENSITY) *
    (((st._implicit_tree_height : Int) - (height : Int) : Int) : ℚ) /
    (st._implicit_tree_height : ℚ)

/-- The default constructor `pma::pma`:
`_implicit_tree_height = log2(INITIAL_CAPACITY)`,
`_segment_size = INITIAL_CAPACITY / _implicit_tree_height`, `_size = 0`,
and both vectors resized (from empty) to `INITIAL_CAPACITY`, i.e. filled
with value-initialised elements. -/
def pma.init : pma where
  _implicit_tree_height := log2u INITIAL_CAPACITY
  _segment_size := INITIAL_CAPACITY / log2u INITIAL_CAPACITY
  _size := 0
  _free_index_bitmap := List.replicate INITIAL_CAPACITY false
  _storage := List.replicate INITIAL_CAPACITY (0 : Int)

/-- The loop of `pma::window_size`:
`for (int i = window; i < window + length; ++i) if (!index_is_free(i)) sz++;`
(`window + length` is `uint32_t` arithmetic). -/
def ws_go (st : pma) (bound i sz fuel : Nat) : Option Nat :=
  match fuel with
  | 0 => none
  | fuel + 1 =>
    if i < bound then
      match st.index_is_free i with
      | none => none
      | some b => ws_go st bound (i + 1) (if b then sz else sz + 1) fuel
    else some sz

/-- `pma::window_size`.  The loop runs at most `bound - window < bound + 1`
iterations, so the fuel is never exhausted. -/
def pma.window_size (st : pma) (window length : Nat) : Option Nat :=
  ws_go st ((window + length) % U32) window 0 ((window + length) % U32 + 1)

/-- The loop of `pma::clear_window`: zero the storage cell and clear the
bitmap bit at each index of the window. -/
def cw_go (st : pma) (bound i fuel : Nat) : Option pma :=
  match fuel with
  | 0 => none
  | fuel + 1 =>
    if i < bound then
      match setN st._storage i 0 with
      | none => none
      | some s1 =>
        match setN st._free_index_bitmap i false with
        | none => none
        | some b1 =>
          cw_go { st with _storage := s1, _free_index_bitmap := b1 } bound (i + 1) fuel
    else some st

/-- `pma::clear_window`.  As in `window_size` the fuel bound is one more than
the largest possible number of iterations. -/
def pma.clear_window (st : pma) (window length : Nat) : Option pma :=
  cw_go st ((window + length) % U32) window ((window + length) % U32 + 1)

/-- Phase one of `pma::naive_rebalance`: compact the occupied cells to
`next_index`, which the source initialises to 0 — the start of the array,
not of the window. -/
def nr_phase1 (st : pma) (bound i next_index fuel : Nat) : Option pma :=
  match fuel with
  | 0 => none
  | fuel + 1 =>
    if i < bound then
      match st.index_is_free i with
      | none => none
      | some true => nr_phase1 st bound (i + 1) next_index fuel
      | some false =>
        if next_index = i then nr_phase1 st bound (i + 1) (next_index + 1) fuel
        else
          match st._storage.get? i with
          | none => none
          | some v =>
            match setN st._storage next_index v with
            | none => none
            | some s1 =>
              match st._free_index_bitmap.get? next_index with
              | none => none
              | some bn =>
                match setN st._free_index_bitmap next_index (!bn) with
                | none => none
                | some b1 =>
                  match setN s1 i 0 with
                  | none => none
                  | some s2 =>
                    match b1.get? i with
                    | none => none
                    | some bi =>
                      match setN b1 i (!bi) with
                      | none => none
                      | some b2 =>
                        nr_phase1 { st with _storage := s2, _free_index_bitmap := b2 }
                          bound (i + 1) (next_index + 1) fuel
    else some st

/-- Phase two of `pma::naive_rebalance`:
`for (int i = window + length - 1; i >= window; i -= gap)` with `int`
counters `i` and `next_index`; the loop condition converts `i` to `uint32_t`
(`u32ofInt`), so a negative `i` still enters the body and the body then
accesses the vectors out of bounds (`none`). -/
def nr_phase2 (st : pma) (window gap : Nat) (i next_index : Int) (fuel : Nat) : Option pma :=
  match fuel with
  | 0 => none
  | fuel + 1 =>
    if window ≤ u32ofInt i then
      match readI st._storage next_index with
      | none => none
      | some v =>
        match writeI st._storage i v with
        | none => none
        | some s1 =>
          match readI st._free_index_bitmap i with
          | none => none
          | some bi =>
            match writeI st._free_index_bitmap i (!bi) with
            | none => none
            | some b1 =>
              match writeI s1 next_index 0 with
              | none => none
              | some s2 =>
                match readI b1 next_index with
                | none => none
                | some bn =>
                  match writeI b1 next_index (!bn) with
                  | none => none
                  | some b2 =>
                    nr_phase2 { st with _storage := s2, _free_index_bitmap := b2 }
                      window gap (i - gap) (next_index - 1) fuel
    else some st

/-- `pma::naive_rebalance`.  `size = window_size(window, length)` is read
first; `gap = length / size` is an integer division, undefined for
`size = 0`; and a `gap` of 0 (impossible, since `size ≤ length`) would make
the C++ phase-two loop spin forever, hence `none`.  Phase two decrements `i`
by `gap ≥ 1` from `window + length - 1` and stops (normally or at an
out-of-bounds access) after at most `length + 2` steps, so the fuel
`window + length + 2` is never exhausted. -/
def pma.naive_rebalance (st : pma) (window length : Nat) : Option pma :=
  match st.window_size window length with
  | none => none
  | some size =>
    match nr_phase1 st ((window + length) % U32) window 0 ((window + length) % U32 + 1) with
    | none => none
    | some st1 =>
      if size = 0 then none
      else if length / size = 0 then none
      else
        nr_phase2 st1 window (length / size)
          ((window : Int) + (length : Int) - 1) ((size : Int) - 1)
          (window + length + 2)

/-- `pma::resize`: double the capacity, recompute the height and segment
size, resize both vectors, then redistribute over the whole array.
`log2(0)` (only possible after a `uint32_t` overflow of the doubling) and a
zero height (division by zero computing `_segment_size`) are undefined. -/
def pma.resize (st : pma) : Option pma :=
  let new_capacity := (st.capacity * 2) % U32
  if new_capacity = 0 then none
  else
    let h := log2u new_capacity
    if h = 0 then none
    else
      let st1 : pma :=
        { _implicit_tree_height := h
          _segment_size := new_capacity / h
          _size := st._size
          _free_index_bitmap := resizeList st._free_index_bitmap new_capacity false
          _storage := resizeList st._storage new_capacity (0 : Int) }
      st1.naive_rebalance 0 new_capacity

/-- The ascent loop of `pma::rebalance` (`for (int height = 1;
height < _implicit_tree_height; ++height)`).  A `break` leaves the loop and
falls through to `naive_rebalance(window, length)`; the in-loop `resize`
returns immediately.  `sz / cap` is a `uint32_t` integer division (undefined
for `cap = 0`) whose result is then compared, as a `double`, against the
threshold; `capacity() - 1` and the window arithmetic wrap in `uint32_t`.
The loop runs at most `_implicit_tree_height - 1` iterations, so fuel
`_implicit_tree_height + 1` is never exhausted. -/
def reb_loop (st : pma) (window length height fuel : Nat) : Option pma :=
  match fuel with
  | 0 => none
  | fuel + 1 =>
    if height < st._implicit_tree_height then
      let cap := st.window_capacity height
      match st.window_size window length with
      | none => none
      | some sz =>
        if cap = 0 then none
        else if ((sz / cap : Nat) : ℚ) < st.upper_density_threshold height then
          st.naive_rebalance window length
        else if window = 0 ∧ (window + length) % U32 = (st.capacity + U32 - 1) % U32 then
          st.resize
        else if window = 0 then
          reb_loop st window ((length + cap) % U32) (height + 1) fuel
        else if (window + length) % U32 = (st.capacity + U32 - 1) % U32 then
          reb_loop st ((window + U32 - cap) % U32) length (height + 1) fuel
        else
          reb_loop st ((window + U32 - cap / 2) % U32) ((length + cap / 2) % U32) (height + 1) fuel
    else st.naive_rebalance window length

/-- The initial window of `pma::rebalance` (lines 99–101):
`window = (segment % number_of_segments() == 0) ? segment
: segment - _segment_size;` and `length = _segment_size * 2`.
`segment % 0` is undefined behaviour, hence `none` for a zero segment
count. -/
def pma.rebalance_first_window (st : pma) (segment : Nat) : Option (Nat × Nat) :=
  if st.number_of_segments = 0 then none
  else
    some
      ( if segment % st.number_of_segments = 0 then segment
        else (segment + U32 - st._segment_size) % U32
      , (st._segment_size * 2) % U32 )

/-- `pma::rebalance`. -/
def pma.rebalance (st : pma) (segment : Nat) : Option pma :=
  match st.rebalance_first_window segment with
  | none => none
  | some (window, length) => reb_loop st window length 1 (st._implicit_tree_height + 1)

/-- The inner loop of `pma::segment_to_insert`.  The source reads
`for (uint32_t i = seg; seg < _segment_size; ++i)`: the condition tests
`seg`, which the loop never changes, so whenever `seg < _segment_size` the
scan walks `i` upward without any segment bound until it breaks, returns, or
reads past the end of the bitmap (undefined behaviour).  `seg -
_segment_size` in the return is `uint32_t` arithmetic and wraps. -/
inductive SegScan where
  | ub : SegScan
  | brk : SegScan
  | ret : Nat → SegScan
deriving DecidableEq

def seg_scan (st : pma) (x : Int) (seg i fuel : Nat) : SegScan :=
  match fuel with
  | 0 => SegScan.ub
  | fuel + 1 =>
    if seg < st._segment_size then
      match st.index_is_free i with
      | none => SegScan.ub
      | some true => seg_scan st x seg (i + 1) fuel
      | some false =>
        match st._storage.get? i with
        | none => SegScan.ub
        | some v =>
          if v < x then SegScan.brk
          else if x = v then SegScan.ret seg
          else SegScan.ret ((seg + U32 - st._segment_size) % U32)
    else SegScan.brk

/-- The outer loop of `pma::segment_to_insert`
(`for (uint32_t seg = 0; seg < capacity(); seg += _segment_size)`).  If the
outer loop finishes, control falls off the end of a value-returning function:
undefined behaviour, hence `none`.  The inner scan reads past the bitmap
within `_free_index_bitmap.length + 1` steps if nothing stops it earlier, so
its fuel is never exhausted; the outer fuel `capacity() + 1` is exhausted
only when `_segment_size = 0` keeps `seg` at 0 forever (a C++ infinite
loop). -/
def sti_go (st : pma) (x : Int) (seg fuel : Nat) : Option Nat :=
  match fuel with
  | 0 => none
  | fuel + 1 =>
    if seg < st.capacity then
      match seg_scan st x seg seg (st._free_index_bitmap.length + 1) with
      | SegScan.ub => none
      | SegScan.ret v => some v
      | SegScan.brk => sti_go st x ((seg + st._segment_size) % U32) fuel
    else none

def pma.segment_to_insert (st : pma) (x : Int) : Option Nat :=
  sti_go st x 0 (st.capacity + 1)

/-- The loop of `pma::position_to_insert`
(`for (uint32_t i = segment; i < _segment_size - 1; ++i)`), with the dangling
`else`: for an occupied cell holding `v`, if `x > v` then `pos = i + 1` and,
since then `x == v` fails, that `pos` is returned at once; if `x == v` the
loop continues with `pos = i + 1`; if `x < v` the old `pos` is returned. -/
def pti_go (st : pma) (x : Int) (bound pos i fuel : Nat) : Option Nat :=
  match fuel with
  | 0 => none
  | fuel + 1 =>
    if i < bound then
      match st.index_is_free i with
      | none => none
      | some true => pti_go st x bound pos (i + 1) fuel
      | some false =>
        match st._storage.get? i with
        | none => none
        | some v =>
          if x = v then pti_go st x bound (i + 1) (i + 1) fuel
          else some (if v < x then i + 1 else pos)
    else some pos

/-- `pma::position_to_insert`: `pos` starts at 0 (not at the segment) and the
bound is `_segment_size - 1` in `uint32_t` (which wraps for
`_segment_size = 0`).  The loop advances `i` every iteration, so fuel
`bound + 1` is never exhausted. -/
def pma.position_to_insert (st : pma) (segment : Nat) (x : Int) : Option Nat :=
  pti_go st x ((st._segment_size + U32 - 1) % U32) 0 segment
    ((st._segment_size + U32 - 1) % U32 + 1)

/-- `pma::insert`.  If the located position is free the key is written, the
bit flipped and `_size` incremented; otherwise the body after the TODO
comment runs: it computes `density = window_size(segment, _segment_size) /
_segment_size` (a `uint32_t` integer division converted to `double`) and
calls `rebalance(segment)` when `upper_density_threshold(0) <= density`,
storing nothing and leaving `_size` unchanged. -/
def pma.insert (st : pma) (x : Int) : Option pma :=
  match st.segment_to_insert x with
  | none => none
  | some segment =>
    match st.position_to_insert segment x with
    | none => none
    | some pos =>
      match st.index_is_free pos with
      | none => none
      | some true =>
        match setN st._storage pos x with
        | none => none
        | some s1 =>
          match st._free_index_bitmap.get? pos with
          | none => none
          | some bp =>
            match setN st._free_index_bitmap pos (!bp) with
            | none => none
            | some b1 =>
              some { st with _storage := s1, _free_index_bitmap := b1, _size := st._size + 1 }
      | some false =>
        match st.window_size segment st._segment_size with
        | none => none
        | some w =>
          if st._segment_size = 0 then none
          else if st.upper_density_threshold 0 ≤ ((w / st._segment_size : Nat) : ℚ) then
            st.rebalance segment
          else some st

/-- The keys read from the occupied slots (the slots the occupancy bitmap
marks in use, i.e. `index_is_free` is `false`) in increasing index order. -/
def occupiedKeys (st : pma) : List Int :=
  (List.range st.capacity).filterMap fun i =>
    if st.index_is_free i = some false then st._storage.get? i else none

/-- The number of indices below `capacity()` whose occupancy bit is set. -/
def occupiedCount (st : pma) : Nat :=
  ((List.range st.capacity).filter fun i => decide (st.index_is_free i = some false)).length

/-- The states a `pma` object can be in after the default constructor and any
sequence of completed public mutating operations.  The mutating operations
defined in `pma.cc` are `insert`, `clear_window`, `rebalance`,
`naive_rebalance` and `resize`; an operation whose C++ execution has no
defined result (`none`) does not complete and so produces no state. -/
inductive Reachable : pma → Prop where
  | init : Reachable pma.init
  | step_insert {st st' : pma} {x : Int}
      (hr : Reachable st) (hop : st.insert x = some st') : Reachable st'
  | step_clear_window {st st' : pma} {w l : Nat}
      (hr : Reachable st) (hop : st.clear_window w l = some st') : Reachable st'
  | step_rebalance {st st' : pma} {seg : Nat}
      (hr : Reachable st) (hop : st.rebalance seg = some st') : Reachable st'
  | step_naive_rebalance {st st' : pma} {w l : Nat}
      (hr : Reachable st) (hop : st.naive_rebalance w l = some st') : Reachable st'
  | step_resize {st st' : pma}
      (hr : Reachable st) (hop : st.resize = some st') : Reachable st'

/-- A fully occupied four-slot state (height 2, segment size 2): the root
window `[0, 4)` is saturated, which per the specification must make the
rebalancer hand off to `resize`. -/
def full4 : pma := ⟨2, 2, 4, [true, true, true, true], [1, 2, 3, 4]⟩

/-- A state whose second segment `[2, 4)` holds the single key 9 while slot 0
(outside that window) holds the key 7. -/
def st9 : pma := ⟨2, 2, 2, [true, false, true, false], [7, 0, 9, 0]⟩

/-- The state `naive_rebalance(2, 2)` produces from `st9`: the key 7 at slot
0 has been destroyed even though slot 0 lies outside the window `[2, 4)`. -/
def st9after : pma := ⟨2, 2, 2, [true, false, false, true], [0, 0, 0, 9]⟩

/-- On the freshly constructed pma every bitmap index below 4 is free and
every index from 4 on is out of bounds. -/
theorem index_is_free_init (i : Nat) :
    pma.init.index_is_free i = if i < 4 then some true else none := by
  rcases Nat.lt_or_ge i 4 with h | h
  · rw [if_pos h]
    interval_cases i <;> rfl
  · rw [if_neg (Nat.not_lt.mpr h)]
    unfold pma.index_is_free
    rw [dif_neg]
    have hlen : pma.init._free_index_bitmap.length = 4 := rfl
    omega

theorem insert_init_none (x : Int) : pma.init.insert x = none := rfl

theorem resize_init_none : pma.init.resize = none := rfl

/-- Scanning any window of the all-free initial pma either hits an
out-of-bounds read or counts nothing. -/
theorem ws_go_init (fuel : Nat) : ∀ bound i sz,
    ws_go pma.init bound i sz fuel = none ∨ ws_go pma.init bound i sz fuel = some sz := by
  induction fuel with
  | zero => intro bound i sz; left; rfl
  | succ fuel ih =>
    intro bound i sz
    by_cases hb : i < bound
    · by_cases h4 : i < 4
      · have hfree : pma.init.index_is_free i = some true := by
          rw [index_is_free_init, if_pos h4]
        simp only [ws_go, hfree, if_pos hb]
        simpa using ih bound (i + 1) sz
      · have hfree : pma.init.index_is_free i = none := by
          rw [index_is_free_init, if_neg h4]
        left
        simp only [ws_go, hfree, if_pos hb]
    · right
      simp only [ws_go, if_neg hb]

theorem window_size_init (w l : Nat) :
    pma.init.window_size w l = none ∨ pma.init.window_size w l = some 0 :=
  ws_go_init ((w + l) % U32 + 1) ((w + l) % U32) w 0

/-- Phase one of `naive_rebalance` over the all-free initial pma either hits
an out-of-bounds read or moves nothing. -/
theorem nr_phase1_init (fuel : Nat) : ∀ bound i ni,
    nr_phase1 pma.init bound i ni fuel = none ∨
    nr_phase1 pma.init bound i ni fuel = some pma.init := by
  induction fuel with
  | zero => intro bound i ni; left; rfl
  | succ fuel ih =>
    intro bound i ni
    by_cases hb : i < bound
    · by_cases h4 : i < 4
      · have hfree : pma.init.index_is_free i = some true := by
          rw [index_is_free_init, if_pos h4]
        simp only [nr_phase1, hfree, if_pos hb]
        exact ih bound (i + 1) ni
      · have hfree : pma.init.index_is_free i = none := by
          rw [index_is_free_init, if_neg h4]
        left
        simp only [nr_phase1, hfree, if_pos hb]
    · right
      simp only [nr_phase1, if_neg hb]

/-- `naive_rebalance` never completes from the initial state: either the
window scan reads out of bounds, or the window is empty and
`gap = length / size` divides by zero. -/
theorem naive_rebalance_init (w l : Nat) : pma.init.naive_rebalance w l = none := by
  unfold pma.naive_rebalance
  rcases window_size_init w l with h | h <;>
    rcases nr_phase1_init ((w + l) % U32 + 1) ((w + l) % U32) w 0 with h1 | h1 <;>
      simp only [pma.window_size] at h <;>
        simp [pma.window_size, h, h1]

/-- The initial pma has density thresholds computed with tree height 2; at
height 1 the upper threshold is 0.75 (exact double arithmetic). -/
theorem udt_init_one : pma.init.upper_density_threshold 1 = 3 / 4 := by
  norm_num [pma.upper_density_threshold, ROOT_UPPER_DENSITY, LEAF_UPPER_DENSITY, pma.init,
    INITIAL_CAPACITY, log2u, log2_go]

/-- If the ascent loop has not yet reached the top and its window scan reads
out of bounds, `rebalance` has no defined result. -/
theorem reb_loop_ws_none (st : pma) (w l h fuel : Nat)
    (hh : h < st._implicit_tree_height) (hws : st.window_size w l = none) :
    reb_loop st w l h (fuel + 1) = none := by
  rw [reb_loop]
  rw [if_pos hh, hws]

/-- At height 1 over the initial state an empty window breaks the ascent
(0 < 0.75) and the subsequent `naive_rebalance` divides by zero. -/
theorem reb_loop_init_zero (w : Nat) (hws : pma.init.window_size w 4 = some 0) :
    reb_loop pma.init w 4 1 (2 + 1) = none := by
  rw [reb_loop]
  rw [if_pos (show (1 : Nat) < pma.init._implicit_tree_height by decide), hws]
  have hcap : pma.init.window_capacity 1 = 4 := rfl
  simp only [hcap]
  norm_num [udt_init_one, naive_rebalance_init]

/-- `rebalance` never completes from the initial state: an empty window either
breaks the ascent at height 1 and the subsequent `naive_rebalance` divides by
zero, or the window scan reads out of bounds. -/
theorem rebalance_init (seg : Nat) : pma.init.rebalance seg = none := by
  have hfw : pma.init.rebalance_first_window seg =
      some (if seg % 2 = 0 then seg else (seg + U32 - 2) % U32, 4) := rfl
  unfold pma.rebalance
  simp only [hfw]
  rcases window_size_init (if seg % 2 = 0 then seg else (seg + U32 - 2) % U32) 4 with h | h
  · exact reb_loop_ws_none pma.init _ 4 1 2 (by decide) h
  · exact reb_loop_init_zero _ h

theorem set_init_storage {i : Nat} (h : i < 4) :
    pma.init._storage.set i 0 = pma.init._storage := by
  interval_cases i <;> rfl

theorem set_init_bitmap {i : Nat} (h : i < 4) :
    pma.init._free_index_bitmap.set i false = pma.init._free_index_bitmap := by
  interval_cases i <;> rfl

/-- All writes of `clear_window` on the all-zero initial pma are identities,
so a completed `clear_window` returns the initial state. -/
theorem cw_go_init (fuel : Nat) : ∀ bound i st',
    cw_go pma.init bound i fuel = some st' → st' = pma.init := by
  induction fuel with
  | zero => intro bound i st' h; exact absurd h (by simp [cw_go])
  | succ fuel ih =>
    intro bound i st' h
    by_cases hb : i < bound
    · by_cases h4 : i < 4
      · have hs : setN pma.init._storage i (0 : Int) = some pma.init._storage := by
          unfold setN
          rw [if_pos (show i < pma.init._storage.length from h4), set_init_storage h4]
        have hbm : setN pma.init._free_index_bitmap i false =
            some pma.init._free_index_bitmap := by
          unfold setN
          rw [if_pos (show i < pma.init._free_index_bitmap.length from h4), set_init_bitmap h4]
        simp only [cw_go, if_pos hb, hs, hbm] at h
        exact ih bound (i + 1) st' h
      · have hs : setN pma.init._storage i (0 : Int) = none := by
          unfold setN
          rw [if_neg (show ¬ i < pma.init._storage.length from h4)]
        simp only [cw_go, if_pos hb, hs] at h
        exact Option.noConfusion h
    · simp only [cw_go, if_neg hb] at h
      exact (Option.some.inj h).symm

theorem clear_window_init (w l : Nat) (st' : pma)
    (h : pma.init.clear_window w l = some st') : st' = pma.init :=
  cw_go_init ((w + l) % U32 + 1) ((w + l) % U32) w st' h

/-- The only reachable state is the initial one: from it, `insert`,
`rebalance`, `naive_rebalance` and `resize` never complete, and a completed
`clear_window` only rewrites zeros over zeros. -/
theorem reachable_eq_init {st : pma} (h : Reachable st) : st = pma.init := by
  induction h with
  | init => rfl
  | step_insert hr hop ih =>
    rw [ih] at hop; rw [insert_init_none] at hop; cases hop
  | step_clear_window hr hop ih =>
    rw [ih] at hop; exact clear_window_init _ _ _ hop
  | step_rebalance hr hop ih =>
    rw [ih] at hop; rw [rebalance_init] at hop; cases hop
  | step_naive_rebalance hr hop ih =>
    rw [ih] at hop; rw [naive_rebalance_init] at hop; cases hop
  | step_resize hr hop ih =>
    rw [ih] at hop; rw [resize_init_none] at hop; cases hop

/-- The upper density threshold of `full4` (tree height 2) at height 1 is
0.75, exactly as in the double computation. -/
theorem udt_full4_one : full4.upper_density_threshold 1 = 3 / 4 := by
  norm_num [pma.upper_density_threshold, ROOT_UPPER_DENSITY, LEAF_UPPER_DENSITY, full4]

/-- The saturated root window of `full4` fails its height-1 threshold test:
its integer density `4 / 4 = 1` is not below 0.75. -/
theorem full4_density_not_lt :
    ¬ (((4 / full4.window_capacity 1 : Nat) : ℚ) < full4.upper_density_threshold 1) := by
  have hcap : full4.window_capacity 1 = 4 := rfl
  rw [hcap, udt_full4_one]
  norm_num

/-- On `full4` the ascent loop sees the root window `(0, 4)` over its
threshold, yet the resize test `window + length == capacity() - 1` compares
4 with 3 and fails, so the loop widens the window to `(0, 8)` and the
subsequent scan reads out of bounds. -/
theorem full4_rebalance_none : full4.rebalance 0 = none := by
  show reb_loop full4 0 4 1 (2 + 1) = none
  rw [reb_loop]
  have hws : full4.window_size 0 4 = some 4 := rfl
  have hh : (1 : Nat) < full4._implicit_tree_height := by decide
  have hcap : full4.window_capacity 1 = 4 := rfl
  simp only [hws, if_pos hh, hcap]
  rw [if_neg (by decide : ¬ (4 : Nat) = 0)]
  rw [if_neg (show ¬ (((4 / 4 : Nat) : ℚ) < full4.upper_density_threshold 1) by
    rw [udt_full4_one]; norm_num)]
  rw [if_neg (by decide :
    ¬ (True ∧ (0 + 4) % U32 = (full4.capacity + U32 - 1) % U32))]
  rw [if_pos trivial]
  rfl

/-- Claim C1: the claim states that `insert(x)` always stores `x` and
increases `size()` by exactly one on every reachable state.  The code does
not: from the only reachable state — the freshly constructed pma — every
`insert` first calls `segment_to_insert`, whose broken inner loop scans past
the end of the all-free bitmap (an out-of-bounds read at index 4), so the
call has no defined result, stores nothing and never increments `_size`; and
even with a working locator, the occupied-position branch of `insert` is an
unimplemented TODO (lines 48–54 of `pma.cc`) that neither shifts nor writes
nor increments. -/
theorem insert_never_stores_from_fresh : ∀ x : Int, pma.init.insert x = none :=
  fun x => insert_init_none x

/-- Claim C2: after every completed public operation on a default-constructed
pma, the keys of the occupied slots read in increasing index order form a
non-decreasing sequence.  This holds — vacuously strongly: the only reachable
state is the initial one (no mutating operation ever completes from it except
the identity `clear_window`), and there the occupied sequence is empty. -/
theorem occupied_keys_sorted_of_reachable (st : pma) (h : Reachable st) :
    List.Sorted (fun a b : Int => a ≤ b) (occupiedKeys st) := by
  rw [reachable_eq_init h]
  have he : occupiedKeys pma.init = [] := rfl
  rw [he]
  exact List.sorted_nil

theorem occupied_keys_sorted_witness :
    Reachable pma.init ∧ List.Sorted (fun a b : Int => a ≤ b) (occupiedKeys pma.init) :=
  ⟨Reachable.init, occupied_keys_sorted_of_reachable pma.init Reachable.init⟩

/-- Claim C3: after every completed public operation, `size()` equals the
number of indices `i < capacity()` with `index_is_free(i)` false.  The only
reachable state is the initial one, where both sides are 0. -/
theorem size_eq_occupied_count_of_reachable (st : pma) (h : Reachable st) :
    st.size = occupiedCount st := by
  rw [reachable_eq_init h]
  rfl

theorem size_eq_occupied_count_witness :
    Reachable pma.init ∧ pma.init.size = occupiedCount pma.init :=
  ⟨Reachable.init, size_eq_occupied_count_of_reachable pma.init Reachable.init⟩

/-- Claim C4: the claim states that `segment_to_insert(x)` terminates and
returns a valid segment start on every reachable state.  The code does not:
on the freshly constructed (reachable) pma the inner loop condition
`seg < _segment_size` never changes, so the scan walks `i` past the bitmap
and reads out of bounds at index 4 for every key, returning nothing. -/
theorem segment_to_insert_undefined_from_fresh :
    ∀ x : Int, pma.init.segment_to_insert x = none :=
  fun _ => rfl

/-- Claim C5: the claim states that `position_to_insert(s, x)` returns an
index inside the segment `[s, s + segment_size())` (the first strictly larger
live key, or one past the last occupied slot).  The code does not: on the
freshly constructed (reachable) pma, for the valid segment start 2 the loop
bound `_segment_size - 1 = 1` is below the segment start, so the loop body
never runs and the function returns its initialiser 0 — an index outside the
segment `[2, 4)` — for every key. -/
theorem position_to_insert_escapes_segment :
    ∀ x : Int, pma.init.position_to_insert 2 x = some 0 :=
  fun _ => rfl

/-- Claim C6: the claim states that when the ascent reaches the root window
(capacity `capacity()`) still above its upper threshold, `rebalance` invokes
`resize` and the capacity doubles.  The code does not: on `full4` the root
window `(0, 4)` holds 4 keys (density 1, not below the 0.75 threshold at
height 1), but the resize test compares `window + length = 4` against
`capacity() - 1 = 3`, fails, widens the window to `(0, 8)` and the subsequent
scan reads out of bounds, so `rebalance` neither resizes nor completes. -/
theorem rebalance_at_saturated_root_never_resizes :
    full4.capacity = 4 ∧
    full4.window_size 0 4 = some 4 ∧
    ¬ (((4 / full4.window_capacity 1 : Nat) : ℚ) < full4.upper_density_threshold 1) ∧
    full4.rebalance 0 = none :=
  ⟨rfl, rfl, full4_density_not_lt, full4_rebalance_none⟩

/-- Claim C7: in every reachable state the capacity is a power of two, the
segment size is a power of two, and the capacity is a multiple of the segment
size.  The only reachable state is the initial one, with capacity 4 = 2^2 and
segment size 2 = 2^1. -/
theorem capacity_shape_of_reachable (st : pma) (h : Reachable st) :
    (∃ k, st.capacity = 2 ^ k) ∧ (∃ k, st.segment_size = 2 ^ k) ∧
      st.segment_size ∣ st.capacity := by
  rw [reachable_eq_init h]
  exact ⟨⟨2, rfl⟩, ⟨1, rfl⟩, ⟨2, rfl⟩⟩

theorem capacity_shape_witness :
    Reachable pma.init ∧
      ((∃ k, pma.init.capacity = 2 ^ k) ∧ (∃ k, pma.init.segment_size = 2 ^ k) ∧
        pma.init.segment_size ∣ pma.init.capacity) :=
  ⟨Reachable.init, capacity_shape_of_reachable pma.init Reachable.init⟩

/-- Claim C8: the claim states that every window `rebalance` hands to
`window_size` is aligned (`start` a multiple of `length`) and stays below
`capacity()`.  The code does not: for segment start 2 on the initial pma,
`segment % number_of_segments()` is `2 % 2 = 0`, so the first window is
`(2, 4)` — start 2 is not a multiple of length 4 and the window extends to
index 6 on a 4-slot array, so the very first `window_size` call reads index 4
out of bounds and `rebalance` has no defined result. -/
theorem rebalance_passes_misaligned_window :
    pma.init.rebalance_first_window 2 = some (2, 4) ∧
    ¬ (2 % 4 = 0) ∧
    pma.init.capacity < 2 + 4 ∧
    pma.init.window_size 2 4 = none ∧
    pma.init.rebalance 2 = none :=
  ⟨rfl, by decide, by decide, rfl, rfl⟩

/-- Claim C9: the claim states that `naive_rebalance(w, L)` works in place
inside `[w, w + L)`, leaving all other slots and bits unchanged.  The code
does not: both phases index from the start of the array (`next_index = 0` and
`next_index = size - 1`), so redistributing the window `[2, 4)` of `st9`
routes its key through slot 0, overwriting the key 7 stored there: slot 0
ends occupied but zeroed. -/
theorem naive_rebalance_clobbers_outside_window :
    st9.naive_rebalance 2 2 = some st9after ∧
    st9after._storage.get? 0 ≠ st9._storage.get? 0 :=
  ⟨rfl, by decide⟩

/-- Claim C10: a default-constructed pma has capacity 4, size 0, segment size
2, tree height 2, and every index below 4 free. -/
theorem default_constructed_pma_fields :
    pma.init.capacity = 4 ∧ pma.init.size = 0 ∧ pma.init.segment_size = 2 ∧
      pma.init.tree_height = 2 ∧
      ∀ i : Nat, i < 4 → pma.init.index_is_free i = some true := by
  refine ⟨rfl, rfl, rfl, rfl, ?_⟩
  intro i hi
  rw [index_is_free_init, if_pos hi]

theorem default_constructed_pma_witness : pma.init.index_is_free 3 = some true :=
  default_constructed_pma_fields.2.2.2.2 3 (by omega)
